import Mathlib

/-!
Verification of the infra control plane (registry data layer, engine
reconciler, engine JWT proxy) against its natural-language specification.

The Go sources are shallowly embedded: pure request handling becomes Lean
functions over explicit request/state values, the relational store becomes a
list of rows with queries translated clause by clause from the SQL built in
the Go code, and fallible operations return `Except`.  External libraries
(go-jose signature checking, the Kubernetes client, gRPC) are modelled
abstractly at their call sites, as noted in the doc comments.
-/

deriving instance DecidableEq for Except

namespace Infra

/-! ## String utilities

Structurally recursive character-list models of the Go string operations
the sources use (`strings.Replace(s, old, new, -1)`, `strings.Split`,
`strings.HasPrefix` behaviour of path matching, decimal parsing).  The
Lean core counterparts are defined by well-founded recursion and do not
evaluate inside the kernel, so these versions are used instead; each is a
plain reimplementation of the same behaviour. -/

/-- When `pat` matches at the head of `s`, returns the remainder of `s`. -/
def stripPat : List Char → List Char → Option (List Char)
  | s, [] => some s
  | [], _ :: _ => none
  | c :: s, p :: ps => if c = p then stripPat s ps else none

/-- Fuel-indexed worker for `replaceAll`; the fuel is the input length,
which suffices because every step consumes at least one character when
the pattern is non-empty. -/
def replaceAllAux (pat rep : List Char) : Nat → List Char → List Char
  | _, [] => []
  | 0, s => s
  | Nat.succ fuel, c :: s =>
    match stripPat (c :: s) pat with
    | some rest => rep ++ replaceAllAux pat rep fuel rest
    | none => c :: replaceAllAux pat rep fuel s

/-- Model of Go `strings.Replace(s, pat, rep, -1)`: replace every
non-overlapping occurrence of `pat`, scanning left to right.  (Go treats
an empty `pat` as matching between characters; the sources only ever pass
the non-empty pattern "Bearer ", so that case is left at identity.) -/
def replaceAll (s pat rep : String) : String :=
  if pat.data.isEmpty then s
  else ⟨replaceAllAux pat.data rep.data s.data.length s.data⟩

/-- Model of Go `strings.HasPrefix s pat` (and of the head test done by
the stdlib path-stripping handler). -/
def strStarts (s pat : String) : Bool :=
  (stripPat s.data pat.data).isSome

/-- Drop the first `n` characters. -/
def strDrop (s : String) (n : Nat) : String := ⟨s.data.drop n⟩

/-- Split on a separator character, Go `strings.Split(s, sep)` for a
one-character separator. -/
def splitOnChar (c : Char) : List Char → List (List Char)
  | [] => [[]]
  | x :: xs =>
    if x = c then [] :: splitOnChar c xs
    else
      match splitOnChar c xs with
      | h :: t => (x :: h) :: t
      | [] => [[x]]

def splitDot (s : String) : List String :=
  (splitOnChar '.' s.data).map (fun l => ⟨l⟩)

def digitVal (c : Char) : Option Nat :=
  if c = '0' then some 0 else if c = '1' then some 1
  else if c = '2' then some 2 else if c = '3' then some 3
  else if c = '4' then some 4 else if c = '5' then some 5
  else if c = '6' then some 6 else if c = '7' then some 7
  else if c = '8' then some 8 else if c = '9' then some 9 else none

def digitsToNatAux : Nat → List Char → Option Nat
  | acc, [] => some acc
  | acc, c :: cs =>
    match digitVal c with
    | some d => digitsToNatAux (10 * acc + d) cs
    | none => none

/-- Decimal parse of a non-empty all-digit string, the behaviour of
`strconv` parsing used by the id parser. -/
def decimalToNat (s : String) : Option Nat :=
  if s.data.isEmpty then none else digitsToNatAux 0 s.data

/-! ## HTTP model

`net/http` headers are multi-valued: `Header.Get` returns the first value
for a key (or "" when absent), `Set` replaces all values for the key,
`Add` appends a value, `Del` removes all values for the key.  Keys are
compared literally; all keys used by the code are already in canonical
form, so Go's key canonicalisation is not re-modelled.
-/

structure Header where
  entries : List (String × String)
  deriving DecidableEq

def Header.get (h : Header) (k : String) : String :=
  match h.entries.find? (fun e => e.1 == k) with
  | some e => e.2
  | none => ""

def Header.values (h : Header) (k : String) : List String :=
  (h.entries.filter (fun e => e.1 == k)).map (fun e => e.2)

def Header.del (h : Header) (k : String) : Header :=
  ⟨h.entries.filter (fun e => !(e.1 == k))⟩

def Header.set (h : Header) (k v : String) : Header :=
  ⟨(h.del k).entries ++ [(k, v)]⟩

def Header.add (h : Header) (k v : String) : Header :=
  ⟨h.entries ++ [(k, v)]⟩

/-- An inbound HTTP request as seen by the engine's handlers: headers, URL
path and raw query string, and the request-context slot that
`jwtMiddleware` fills with the authenticated email
(`HttpContextKeyEmail`). -/
structure Request where
  header : Header
  path : String
  rawQuery : String
  ctxEmail : Option String
  deriving DecidableEq

/-! ## JWT model (engine proxy)

`gopkg.in/square/go-jose.v2` is an external library; a parsed JWT is
modelled as the claims the code reads plus the identity of the key that
signed it, and signature verification under a JWK succeeds exactly for
that key.  A JWK is identified by a natural number. -/

abbrev JWK := Nat

structure Tok where
  sigKey : JWK
  issuer : String
  expiry : Option Int
  notBefore : Option Int
  email : Option String
  deriving DecidableEq

/-- Model of `tok.Claims(key, ...)`: signature verification of a parsed
token under a single JWK. -/
def checkSig (key : JWK) (t : Tok) : Bool :=
  t.sigKey == key

inductive ClaimsErr
  | invalidIssuer
  | notValidYet
  | expired
  deriving DecidableEq

/-- go-jose `Validate` applies a default leeway of one minute. -/
def DefaultLeeway : Int := 60

/-- Model of `cl.Validate(jwt.Expected{Issuer: "infra", Time: now})` from
go-jose: issuer is checked first, then not-before, then expiry, each with
the default leeway.  Times are integer seconds. -/
def validateClaims (now : Int) (t : Tok) : Option ClaimsErr :=
  if t.issuer ≠ "infra" then some .invalidIssuer
  else if t.notBefore.any (fun nbf => decide (now + DefaultLeeway < nbf)) then
    some .notValidYet
  else if t.expiry.any (fun e => decide (now - DefaultLeeway > e)) then
    some .expired
  else none

/-- Model of `jwkCache.getjwk` applied to the result of fetching
`/.well-known/jwks.json` from the registry: a fetch or decode failure is
returned as an error, an empty key set yields the "no jwks provided by
registry" error, and otherwise the FIRST key of the published set,
`response.Keys[0]`, is cached and returned.  The mutex and the five-minute
refresh window only control when a fetch happens; within the window the
previously cached `Keys[0]` is returned, so the returned key is always the
head of some fetched key list. -/
def getjwk (fetchRes : Except String (List JWK)) : Except String JWK :=
  match fetchRes with
  | .error e => .error e
  | .ok keys =>
    match keys with
    | [] => .error "no jwks provided by registry"
    | k :: _ => .ok k

inductive MWResult
  | respond (status : Nat) (body : String)
  | forward (req : Request)
  deriving DecidableEq

/-- Shallow embedding of `jwtMiddleware`.  `getjwkRes` is the result of the
injected `GetJWKFunc`; `parse` is `jwt.ParseSigned` (abstract: which raw
strings decode to which tokens); `now` is `time.Now()`.  `http.Error`
with status 401 is modelled as `.respond 401 body` (the Go helper appends
a newline to the body when writing it).  On success the request is
forwarded to the next handler with the email stored in its context. -/
def jwtMiddleware (getjwkRes : Except String JWK) (parse : String → Option Tok)
    (now : Int) (r : Request) : MWResult :=
  let authorization := r.header.get "X-Infra-Authorization"
  let raw := replaceAll authorization "Bearer " ""
  if raw = "" then .respond 401 "unauthorized"
  else
    match parse raw with
    | none => .respond 401 "unauthorized"
    | some tok =>
      match getjwkRes with
      | .error _ => .respond 401 "unauthorized"
      | .ok key =>
        if ¬ checkSig key tok then .respond 401 "unauthorized"
        else
          match validateClaims now tok with
          | some .expired => .respond 401 "expired"
          | some _ => .respond 401 "unauthorized"
          | none =>
            match tok.email with
            | none => .respond 401 "unauthorized"
            | some email => .forward { r with ctxEmail := some email }

inductive ProxyResult
  | respond (status : Nat) (body : String)
  | upstream (req : Request)
  deriving DecidableEq

/-- Shallow embedding of the handler returned by `proxyHandler`.  The CA
pool and TLS transport configure the network layer and are not modelled;
the value produced here is the rewritten request handed to the reverse
proxy.  Steps, in source order: restore the query string from
`X-Infra-Query` when that header is non-empty; read the email placed in
the context by `jwtMiddleware` (401 when absent); delete
`X-Infra-Authorization`; `Set` `Impersonate-User`; `Add` an
`Authorization: Bearer <engine SA token>` value; finally the `/proxy`
path head is stripped (404 when the path does not start with it). -/
def proxyHandler (bearerToken : String) (r : Request) : ProxyResult :=
  let r := if r.header.get "X-Infra-Query" ≠ ""
             then { r with rawQuery := r.header.get "X-Infra-Query" }
             else r
  match r.ctxEmail with
  | none => .respond 401 "unauthorized"
  | some email =>
    let h := (r.header.del "X-Infra-Authorization").set "Impersonate-User" email
    let h := h.add "Authorization" ("Bearer " ++ bearerToken)
    if strStarts r.path "/proxy" then
      .upstream { r with header := h, path := strDrop r.path 6 }
    else .respond 404 "404 page not found"

/-! ## Engine reconciler (`engine.Run` timer body)

Each tick of the five-second timer performs a fixed sequence of calls whose
results are modelled as the environment below.  The Kubernetes client, the
gRPC client and `UpdateRoles` are external at this boundary; what is
verified is the tick's own control flow over their results. -/

structure RoleUser where
  email : String
  deriving DecidableEq

structure Role where
  name : String
  users : List RoleUser
  deriving DecidableEq

structure RolesResponse where
  roles : List Role
  deriving DecidableEq

structure DestResponse where
  id : String
  deriving DecidableEq

structure RoleBinding where
  role : String
  users : List String
  deriving DecidableEq

structure TickEnv where
  ca : Except String String
  endpointOpt : String
  endpointCall : Except String String
  namespaceCall : Except String String
  nameOpt : String
  nameCall : Except String String
  saToken : Except String String
  createDestination : Except String DestResponse
  listRoles : Except String RolesResponse
  updateRoles : List RoleBinding → Except String Unit

inductive TickOutcome
  | finished (logged : List String)
  | panicked (msg : String)
  deriving DecidableEq

/-- Shallow embedding of one tick of the reconciler loop (the closure
passed to `timer.Start` in `engine.Run`).  Every early error branch prints
the error and returns, finishing the tick — except the `ListRoles` branch,
which prints the error and FALLS THROUGH: `rolesRes` is then a nil
pointer, and the following `range rolesRes.Roles` dereferences it, which
in Go panics.  The nil pointer is modelled as `none` and the dereference
as the match that produces `.panicked`. -/
def runTick (env : TickEnv) : TickOutcome :=
  match env.ca with
  | .error e => .finished [e]
  | .ok _ =>
    match (if env.endpointOpt = "" then env.endpointCall else .ok env.endpointOpt) with
    | .error e => .finished [e]
    | .ok _ =>
      match env.namespaceCall with
      | .error e => .finished [e]
      | .ok _ =>
        match (if env.nameOpt = "" then env.nameCall else .ok env.nameOpt) with
        | .error e => .finished [e]
        | .ok _ =>
          match env.saToken with
          | .error e => .finished [e]
          | .ok _ =>
            match env.createDestination with
            | .error e => .finished [e]
            | .ok _res =>
              let rolesRes? : Option RolesResponse × List String :=
                match env.listRoles with
                | .error e => (none, [e])
                | .ok r => (some r, [])
              match rolesRes?.1 with
              | none =>
                .panicked "runtime error: invalid memory address or nil pointer dereference"
              | some rolesRes =>
                let rbs := rolesRes.roles.map (fun r =>
                  { role := r.name, users := r.users.map (fun u => u.email) : RoleBinding })
                match env.updateRoles rbs with
                | .error e => .finished (rolesRes?.2 ++ [e])
                | .ok _ => .finished rolesRes?.2

/-! ## Store: grants, user public keys

A grant row carries the columns of the `grants` table (`grantsTable`),
including the `update_index` column selected alongside them.  The database
is a list of rows plus the value of the `seq_update_index` sequence; a
transaction's implicit organization (`tx.OrganizationID()`) is passed as
the `orgID` argument of each query. -/

structure Grant where
  id : Nat
  organizationID : Nat
  subject : String
  privilege : String
  resource : String
  createdBy : Nat
  createdAt : Int
  updatedAt : Int
  deletedAt : Option Int
  updateIndex : Nat
  deriving DecidableEq

/-- A row of the `user_public_keys` table.  `organizationID` is the tenant
column the spec's persisted-state section assigns to every table; the Go
`userPublicKeysTable` neither selects nor filters it (its column list has
no organization column), which is exactly what claim C2 is about. -/
structure UserPublicKeyRow where
  id : Nat
  organizationID : Nat
  userID : Nat
  name : String
  publicKey : String
  keyType : String
  fingerprint : String
  expiresAt : Int
  deletedAt : Option Int
  deriving DecidableEq

structure DB where
  grants : List Grant
  userPublicKeys : List UserPublicKeyRow
  identitiesGroups : List (Nat × Nat)
  seqUpdateIndex : Nat
  deriving DecidableEq

/-- Modelled from the spec: `uid.NewIdentityPolymorphicID` renders a user
id as a tagged string (the `uid` package is not under src/; spec §9 gives
the tag scheme `u:<id>` / `g:<id>`). -/
def NewIdentityPolymorphicID (id : Nat) : String := "u:" ++ toString id

/-- Modelled from the spec: `uid.NewGroupPolymorphicID` renders a group id
as a tagged string. -/
def NewGroupPolymorphicID (id : Nat) : String := "g:" ++ toString id

/-- Modelled from the spec: `uid.PolymorphicID.ID()` parses the numeric
part after the two-character tag; an unparsable id is an error. -/
def polymorphicToID (p : String) : Except String Nat :=
  match decimalToNat (strDrop p 2) with
  | some n => .ok n
  | none => .error "invalid polymorphic id"

/-- Modelled from the spec: `uid.PolymorphicID.IsIdentity()` recognises
the user tag. -/
def polymorphicIsIdentity (p : String) : Bool := strStarts p "u:"

/-- Modelled from the spec: `groupIDsForUser` (its source file is not
under src/) returns the ids of the groups the user is a member of,
reading the `identities_groups` join table. -/
def groupIDsForUser (db : DB) (userID : Nat) : List Nat :=
  (db.identitiesGroups.filter (fun m => m.1 == userID)).map (fun m => m.2)

structure Pagination where
  page : Nat
  limit : Nat
  deriving DecidableEq

/-- Modelled from the spec: `Pagination.PaginateQuery` (not under src/)
adds `LIMIT limit OFFSET (page-1)*limit` to the query; results are
paginated by `id ASC`. -/
def paginate (p : Option Pagination) (rows : List Grant) : List Grant :=
  match p with
  | none => rows
  | some pg => (rows.drop ((pg.page - 1) * pg.limit)).take pg.limit

/-- `ORDER BY id ASC` on the result rows (insertion sort). -/
def insertById (g : Grant) : List Grant → List Grant
  | [] => [g]
  | h :: t => if g.id ≤ h.id then g :: h :: t else h :: insertById g t

def sortById : List Grant → List Grant
  | [] => []
  | h :: t => insertById h (sortById t)

structure ListGrantsOptions where
  bySubject : String := ""
  byPrivileges : List String := []
  byResource : String := ""
  byDestination : String := ""
  includeInheritedFromGroups : Bool := false
  excludeConnectorGrant : Bool := false
  pagination : Option Pagination := none
  /-- Models whether the caller passed a non-nil `MaxUpdateIndex` out
  pointer. -/
  maxUpdateIndex : Bool := false
  deriving DecidableEq

/-- The `WHERE` clause of `grantsMaxUpdateIndex`: `organization_id = ?
[AND resource = ?]`.  There is deliberately no `deleted_at` filter. -/
def gmuiWhere (orgID : Nat) (byResource : String) (g : Grant) : Bool :=
  g.organizationID == orgID && (byResource == "" || g.resource == byResource)

/-- `grantsMaxUpdateIndex`: `SELECT max(update_index) FROM grants WHERE
organization_id = ? [AND resource = ?]`.  Soft-deleted rows are included.
When no row matches, SQL `max` yields NULL and scanning it into an
`int64` fails, hence the error case. -/
def grantsMaxUpdateIndex (db : DB) (orgID : Nat) (byResource : String) :
    Except String Nat :=
  match db.grants.filter (gmuiWhere orgID byResource) with
  | [] => .error "sql: Scan error: converting NULL to int64 is unsupported"
  | g :: gs => .ok (gs.foldl (fun a x => Nat.max a x.updateIndex) g.updateIndex)

/-- The subject set of the `ListGrants` query (source lines building the
`subject = ?` / `subject IN (?)` clause): the subject itself, extended —
when `IncludeInheritedFromGroups` is set — with the group polymorphic ids
of the groups the user belongs to; a non-user subject is rejected.  An
empty list means no subject clause is added. -/
def listSubjects (db : DB) (opts : ListGrantsOptions) :
    Except String (List String) :=
  if opts.bySubject ≠ "" then
    if ¬ opts.includeInheritedFromGroups then .ok [opts.bySubject]
    else
      match polymorphicToID opts.bySubject, polymorphicIsIdentity opts.bySubject with
      | .ok userID, true =>
        .ok (opts.bySubject ::
          (groupIDsForUser db userID).map NewGroupPolymorphicID)
      | _, _ => .error "IncludeInheritedFromGroups requires a userId subject"
  else .ok []

/-- The `WHERE` clause of the `ListGrants` query: `deleted_at is null AND
organization_id = ?` plus the optional subject / privileges / resource /
destination / connector filters (`LIKE 'D.%'` is the starts-with test on
`D ++ "."`). -/
def grantWhere (orgID : Nat) (opts : ListGrantsOptions)
    (subjects : List String) (g : Grant) : Bool :=
  g.deletedAt.isNone
  && g.organizationID == orgID
  && (opts.bySubject == "" || subjects.contains g.subject)
  && (opts.byPrivileges.isEmpty || opts.byPrivileges.contains g.privilege)
  && (opts.byResource == "" || g.resource == opts.byResource)
  && (opts.byDestination == "" || g.resource == opts.byDestination
        || strStarts g.resource (opts.byDestination ++ "."))
  && (!opts.excludeConnectorGrant
        || !(g.privilege == "connector" && g.resource == "infra"))

/-- Shallow embedding of `ListGrants`, clause by clause from the SQL the Go
code builds: the subject set, the `WHERE` clause, `ORDER BY id ASC`,
pagination, and finally — when the caller asked for it —
`grantsMaxUpdateIndex` invoked with ONLY the `ByResource` option,
returned as the second component. -/
def ListGrants (db : DB) (orgID : Nat) (opts : ListGrantsOptions) :
    Except String (List Grant × Option Nat) :=
  match listSubjects db opts with
  | .error e => .error e
  | .ok subjects =>
    let rows := paginate opts.pagination
      (sortById (db.grants.filter (grantWhere orgID opts subjects)))
    if opts.maxUpdateIndex then
      match grantsMaxUpdateIndex db orgID opts.byResource with
      | .error e => .error e
      | .ok mi => .ok (rows, some mi)
    else .ok (rows, none)

structure GetGrantOptions where
  byID : Nat := 0
  bySubject : String := ""
  byPrivilege : String := ""
  byResource : String := ""
  deriving DecidableEq

/-- Shallow embedding of `GetGrant`: single-row lookup, always filtered on
`organization_id = ?` and `deleted_at is null`, then by id or by
(subject, privilege, resource). -/
def GetGrant (db : DB) (orgID : Nat) (opts : GetGrantOptions) :
    Except String Grant :=
  let base := fun (g : Grant) => g.organizationID == orgID && g.deletedAt.isNone
  if opts.byID ≠ 0 then
    match db.grants.find? (fun g => base g && g.id == opts.byID) with
    | some g => .ok g
    | none => .error "record not found"
  else if opts.bySubject ≠ "" then
    match db.grants.find? (fun g => base g && g.subject == opts.bySubject
        && g.privilege == opts.byPrivilege && g.resource == opts.byResource) with
    | some g => .ok g
    | none => .error "record not found"
  else .error "GetGrant requires an ID or subject"

/-- Shallow embedding of `userPublicKeys`: the query is `SELECT ... FROM
user_public_keys WHERE deleted_at is null AND user_id = ?`.  The
transaction's organization (`orgID`) is NOT referenced by the query. -/
def userPublicKeys (db : DB) (orgID : Nat) (userID : Nat) :
    List UserPublicKeyRow :=
  db.userPublicKeys.filter (fun k => k.deletedAt.isNone && k.userID == userID)

inductive DataErr
  | validation (msg : String)
  | duplicate
  | notFound
  deriving DecidableEq

/-- Is there already a non-deleted grant with the same
`(organization_id, subject, privilege, resource)`?  This is the partial
unique index behind invariant I1 (the migration defining it is not under
src/; modelled from the spec). -/
def duplicateGrantExists (db : DB) (g : Grant) : Bool :=
  db.grants.any (fun e => e.deletedAt.isNone
    && e.organizationID == g.organizationID
    && e.subject == g.subject && e.privilege == g.privilege
    && e.resource == g.resource)

/-- Shallow embedding of `CreateGrant`.  Field validation first; `setOrg`
stamps the transaction's organization; a `SAVEPOINT` snapshots the
transaction; the `INSERT` draws `nextval('seq_update_index')` for the new
row's `update_index`.  On a unique-index conflict the statement fails and
`ROLLBACK TO SAVEPOINT` restores the rows, leaving the enclosing
transaction usable (`handleError` maps the Postgres unique-violation to
`ErrDuplicate`; it is not under src/ and is modelled from the spec).  The
sequence is non-transactional, so the value burnt by the failed insert is
not restored by the rollback. -/
def CreateGrant (db : DB) (orgID : Nat) (g : Grant) :
    Except DataErr Unit × DB :=
  if g.subject = "" then (.error (.validation "subject is required"), db)
  else if g.privilege = "" then (.error (.validation "privilege is required"), db)
  else if g.resource = "" then (.error (.validation "resource is required"), db)
  else
    let g := { g with organizationID := orgID }
    if duplicateGrantExists db g then
      (.error .duplicate, { db with seqUpdateIndex := db.seqUpdateIndex + 1 })
    else
      let idx := db.seqUpdateIndex + 1
      let row := { g with updateIndex := idx }
      (.ok (), { db with grants := db.grants ++ [row], seqUpdateIndex := idx })

/-- Soft-delete every row matched by `p`, giving each updated row a fresh
value of `seq_update_index` (`nextval` is evaluated once per updated
row).  Returns the updated rows and the sequence's new value. -/
def softDeleteRows (p : Grant → Bool) (now : Int) :
    Nat → List Grant → List Grant × Nat
  | seq, [] => ([], seq)
  | seq, g :: gs =>
    if p g then
      let rest := softDeleteRows p now (seq + 1) gs
      ({ g with deletedAt := some now, updateIndex := seq + 1 } :: rest.1, rest.2)
    else
      let rest := softDeleteRows p now seq gs
      (g :: rest.1, rest.2)

structure DeleteGrantsOptions where
  byID : Nat := 0
  bySubject : String := ""
  byCreatedBy : Nat := 0
  notIDs : List Nat := []
  deriving DecidableEq

/-- Shallow embedding of `DeleteGrants`: `UPDATE grants SET deleted_at =
now, update_index = nextval('seq_update_index') WHERE organization_id = ?
AND deleted_at is null AND <case>`. -/
def DeleteGrants (db : DB) (orgID : Nat) (now : Int)
    (opts : DeleteGrantsOptions) : Except String DB :=
  let base := fun (g : Grant) => g.organizationID == orgID && g.deletedAt.isNone
  if opts.byID ≠ 0 then
    let r := softDeleteRows (fun g => base g && g.id == opts.byID) now
      db.seqUpdateIndex db.grants
    .ok { db with grants := r.1, seqUpdateIndex := r.2 }
  else if opts.bySubject ≠ "" then
    let r := softDeleteRows (fun g => base g && g.subject == opts.bySubject) now
      db.seqUpdateIndex db.grants
    .ok { db with grants := r.1, seqUpdateIndex := r.2 }
  else if opts.byCreatedBy ≠ 0 then
    let r := softDeleteRows (fun g => base g && g.createdBy == opts.byCreatedBy
        && (opts.notIDs.isEmpty || !opts.notIDs.contains g.id)) now
      db.seqUpdateIndex db.grants
    .ok { db with grants := r.1, seqUpdateIndex := r.2 }
  else .error "DeleteGrants requires an ID to delete"

/-! ## Access keys

The implementation of `CreateAccessKey` / `GetAccessKey` /
`ValidateAccessKey` is not under src/ — only its tests are
(`access_key_test.go`).  The definitions below are modelled from the
spec (§4.2, §8) and constrained by those tests. -/

structure AccessKey where
  id : Nat
  issuedFor : Nat
  providerID : Nat
  name : String
  keyID : String
  secret : String
  secretChecksum : String
  expiresAt : Int
  extension : Int
  /-- The Go zero time models an unset deadline; here `0` plays that
  role (`createTestAccessKey` leaves the field at its zero value). -/
  extensionDeadline : Int
  deriving DecidableEq

structure KeyDB where
  keys : List AccessKey
  deriving DecidableEq

/-- Modelled from the spec: the cryptographic checksum of the secret
(I3).  The hash itself is external; it is modelled as an injective
tagging so that checksum equality coincides with what the spec assumes
of a collision-free hash. -/
def secretChecksum (s : String) : String := "chk:" ++ s

/-- Modelled from the spec: `CreateAccessKey` (not under src/).  A missing
key id / secret is generated (generation passed in as `genKeyID` /
`genSecret`), lengths are fixed at 10 and 24 (the tests reject
"too-short" values with the errors below), a zero `expires_at` defaults to
twelve hours from now, and the stored row keeps only the checksum of the
secret — the persisted `secret` column is empty.  Returns the wire form
`keyID.secret`. -/
def CreateAccessKey (db : KeyDB) (now : Int) (k : AccessKey)
    (genKeyID genSecret : String) : Except String (String × KeyDB) :=
  let keyID := if k.keyID = "" then genKeyID else k.keyID
  if keyID.length ≠ 10 then .error "invalid key length"
  else
    let secret := if k.secret = "" then genSecret else k.secret
    if secret.length ≠ 24 then .error "invalid secret length"
    else
      let expAt := if k.expiresAt = 0 then now + 12 * 3600 else k.expiresAt
      let chk := secretChecksum secret
      let stored :=
        { k with keyID := keyID, secret := "", secretChecksum := chk, expiresAt := expAt }
      .ok (keyID ++ "." ++ secret, ⟨db.keys ++ [stored]⟩)

/-- Modelled from the spec: `GetAccessKey(db, ByID(id))` (not under src/):
lookup of the persisted row by primary key. -/
def GetAccessKey (db : KeyDB) (id : Nat) : Except DataErr AccessKey :=
  match db.keys.find? (fun k => k.id == id) with
  | some k => .ok k
  | none => .error .notFound

inductive KeyErr
  | badFormat
  | notFound
  | invalidSecret
  | expired
  | deadlineExceeded
  deriving DecidableEq

/-- Modelled from the spec: `ValidateAccessKey` (not under src/): parse
the dot-separated `keyID.secret`, look up by key id, compare the checksum
of the presented secret with the stored checksum, then check `expires_at`
and — when one is set — `extension_deadline`, failing with the specific
error of the first failing condition.  `TestCheckAccessKeySecret` pins
success for a key whose extension deadline is unset. -/
def ValidateAccessKey (db : KeyDB) (now : Int) (body : String) :
    Except KeyErr AccessKey :=
  match splitDot body with
  | [keyID, secret] =>
    match db.keys.find? (fun k => k.keyID == keyID) with
    | none => .error .notFound
    | some k =>
      if secretChecksum secret ≠ k.secretChecksum then .error .invalidSecret
      else if ¬ (now < k.expiresAt) then .error .expired
      else if k.extensionDeadline ≠ 0 ∧ ¬ (now < k.extensionDeadline) then
        .error .deadlineExceeded
      else .ok k
  | _ => .error .badFormat

/-! ## Concrete scenario values

Named inputs used by the counterexample and witness theorems below. -/

/-- A token signed with key 2, carrying a valid issuer, a far-future
expiry and an email claim. -/
def c1tok : Tok :=
  { sigKey := 2, issuer := "infra", expiry := some 10000, notBefore := none,
    email := some "alice@x" }

/-- A parse function under which the wire string "token1" decodes to
`c1tok` and nothing else parses. -/
def c1parse : String → Option Tok :=
  fun s => if s = "token1" then some c1tok else none

def c1req : Request :=
  { header := ⟨[("X-Infra-Authorization", "Bearer token1")]⟩,
    path := "/proxy/api", rawQuery := "", ctxEmail := none }

def c2row : UserPublicKeyRow :=
  { id := 1, organizationID := 2, userID := 7, name := "laptop",
    publicKey := "AAAAB3Nz", keyType := "ssh-rsa", fingerprint := "fp1",
    expiresAt := 0, deletedAt := none }

def c2db : DB :=
  { grants := [], userPublicKeys := [c2row], identitiesGroups := [],
    seqUpdateIndex := 0 }

def c3grantProd : Grant :=
  { id := 1, organizationID := 1, subject := "u:1", privilege := "view",
    resource := "prod", createdBy := 9, createdAt := 0, updatedAt := 0,
    deletedAt := none, updateIndex := 1 }

def c3grantOther : Grant :=
  { id := 2, organizationID := 1, subject := "u:2", privilege := "admin",
    resource := "other", createdBy := 9, createdAt := 0, updatedAt := 0,
    deletedAt := none, updateIndex := 5 }

def c3db : DB :=
  { grants := [c3grantProd, c3grantOther], userPublicKeys := [],
    identitiesGroups := [], seqUpdateIndex := 5 }

def c3opts : ListGrantsOptions :=
  { byDestination := "prod", maxUpdateIndex := true }

/-- The state of `c3db` after `DeleteGrants(byID := 2)` at time 1000: the
soft-deleted row keeps its data, gains `deleted_at` and a fresh
`update_index` from the sequence. -/
def c3dbAfter : DB :=
  { grants := [c3grantProd,
      { c3grantOther with deletedAt := some 1000, updateIndex := 6 }],
    userPublicKeys := [], identitiesGroups := [], seqUpdateIndex := 6 }

/-- Formalisation of the claim's own wording for C3: the maximum
`update_index` over ALL grant rows — soft-deleted ones included —
matching the call's filters, the destination filter among them.  (Stated
for calls without a subject filter, which is all the counterexample
needs.) -/
def c3ClaimedMax (db : DB) (orgID : Nat) (opts : ListGrantsOptions) : Nat :=
  (db.grants.filter (fun g =>
    g.organizationID == orgID
    && (opts.bySubject == "" || g.subject == opts.bySubject)
    && (opts.byPrivileges.isEmpty || opts.byPrivileges.contains g.privilege)
    && (opts.byResource == "" || g.resource == opts.byResource)
    && (opts.byDestination == "" || g.resource == opts.byDestination
          || strStarts g.resource (opts.byDestination ++ ".")))).foldl
    (fun a x => Nat.max a x.updateIndex) 0

def c4req : Request :=
  { header := ⟨[("Authorization", "Bearer stolen"),
                ("X-Infra-Authorization", "Bearer jwt1")]⟩,
    path := "/proxy/api/v1", rawQuery := "", ctxEmail := some "alice@x" }

def c4cleanReq : Request :=
  { header := ⟨[("X-Infra-Authorization", "Bearer jwt1"),
                ("X-Infra-Query", "watch=true")]⟩,
    path := "/proxy/api/v1/pods", rawQuery := "", ctxEmail := some "alice@x" }

def c5tokNoEmail : Tok :=
  { sigKey := 2, issuer := "infra", expiry := some 10000, notBefore := none,
    email := none }

def c5tokBadIssuer : Tok :=
  { sigKey := 2, issuer := "evil", expiry := some 10000, notBefore := none,
    email := some "alice@x" }

/-- A parse function decoding three wire strings: a good token, one
without an email claim, and one with a wrong issuer. -/
def c5parse : String → Option Tok :=
  fun s =>
    if s = "token1" then some c1tok
    else if s = "noemail" then some c5tokNoEmail
    else if s = "badissuer" then some c5tokBadIssuer
    else none

def c5reqOf (v : String) : Request :=
  { header := ⟨[("X-Infra-Authorization", v)]⟩, path := "/proxy/api",
    rawQuery := "", ctxEmail := none }

/-- A request whose token is sent bare, without any "Bearer " marker. -/
def c10bareReq : Request :=
  { header := ⟨[("X-Infra-Authorization", "token1")]⟩, path := "/proxy/a",
    rawQuery := "", ctxEmail := none }

/-- A parse function under which only the wire string "xyz" decodes. -/
def c10parse : String → Option Tok :=
  fun s => if s = "xyz" then some c1tok else none

def c6env : TickEnv :=
  { ca := .ok "ca-pem", endpointOpt := "", endpointCall := .ok "1.2.3.4",
    namespaceCall := .ok "infra", nameOpt := "cluster-1",
    nameCall := .ok "cluster-1", saToken := .ok "sa-token",
    createDestination := .ok { id := "dest-1" },
    listRoles := .error "rpc error: code = Unavailable",
    updateRoles := fun _ => .ok () }

def c7key : AccessKey :=
  { id := 1, issuedFor := 7, providerID := 1, name := "the-key",
    keyID := "0123456789", secret := "012345678901234567890123",
    secretChecksum := "", expiresAt := 10000, extension := 0,
    extensionDeadline := 0 }

/-- The persisted form of `c7key`: empty secret, checksum only. -/
def c7stored : AccessKey :=
  { c7key with secret := "", secretChecksum := secretChecksum c7key.secret }

def c7db : KeyDB := ⟨[c7stored]⟩

def c8dup : Grant :=
  { id := 3, organizationID := 0, subject := "u:7", privilege := "view",
    resource := "prod", createdBy := 9, createdAt := 0, updatedAt := 0,
    deletedAt := none, updateIndex := 0 }

def c9grantUser : Grant :=
  { id := 1, organizationID := 1, subject := "u:7", privilege := "view",
    resource := "prod", createdBy := 9, createdAt := 0, updatedAt := 0,
    deletedAt := none, updateIndex := 1 }

def c9grantGroup : Grant :=
  { id := 2, organizationID := 1, subject := "g:5", privilege := "admin",
    resource := "prod", createdBy := 9, createdAt := 0, updatedAt := 0,
    deletedAt := none, updateIndex := 2 }

/-- User 7 belongs to group 5; one grant to the user, one to the group. -/
def c9db : DB :=
  { grants := [c9grantUser, c9grantGroup], userPublicKeys := [],
    identitiesGroups := [(7, 5)], seqUpdateIndex := 2 }

/-! ## Helper lemmas -/

theorem mem_insertById {x g : Grant} {l : List Grant} :
    x ∈ insertById g l ↔ x = g ∨ x ∈ l := by
  induction l with
  | nil => simp [insertById]
  | cons h t ih =>
    simp only [insertById]
    split
    · simp
    · simp only [List.mem_cons, ih]
      tauto

theorem mem_sortById {x : Grant} {l : List Grant} :
    x ∈ sortById l ↔ x ∈ l := by
  induction l with
  | nil => simp [sortById]
  | cons h t ih => simp [sortById, mem_insertById, ih]

theorem mem_paginate_none {x : Grant} {l : List Grant} :
    x ∈ paginate none l ↔ x ∈ l := Iff.rfl

theorem mem_paginate {x : Grant} {p : Option Pagination} {l : List Grant}
    (hx : x ∈ paginate p l) : x ∈ l := by
  cases p with
  | none => exact hx
  | some pg =>
    simp only [paginate] at hx
    exact List.mem_of_mem_drop (List.mem_of_mem_take hx)

theorem foldlMax_init_le (l : List Grant) (a : Nat) :
    a ≤ l.foldl (fun b g => Nat.max b g.updateIndex) a := by
  induction l generalizing a with
  | nil => simp
  | cons h t ih =>
    simp only [List.foldl_cons]
    exact le_trans (Nat.le_max_left a h.updateIndex) (ih _)

theorem foldlMax_mem_le {x : Grant} {l : List Grant} (hx : x ∈ l) (a : Nat) :
    x.updateIndex ≤ l.foldl (fun b g => Nat.max b g.updateIndex) a := by
  induction l generalizing a with
  | nil => cases hx
  | cons h t ih =>
    simp only [List.foldl_cons]
    rcases List.mem_cons.mp hx with rfl | hx
    · exact le_trans (Nat.le_max_right a x.updateIndex) (foldlMax_init_le _ _)
    · exact ih hx _

theorem foldlMax_attained (l : List Grant) (a : Nat) :
    l.foldl (fun b g => Nat.max b g.updateIndex) a = a ∨
    ∃ x ∈ l, l.foldl (fun b g => Nat.max b g.updateIndex) a = x.updateIndex := by
  induction l generalizing a with
  | nil => left; rfl
  | cons h t ih =>
    simp only [List.foldl_cons]
    rcases ih (Nat.max a h.updateIndex) with heq | ⟨x, hx, heq⟩
    · rw [heq]
      have hm : Nat.max a h.updateIndex = a ∨
          Nat.max a h.updateIndex = h.updateIndex := max_choice a h.updateIndex
      rcases hm with hm | hm
      · left; exact hm
      · right; exact ⟨h, List.mem_cons_self h t, hm⟩
    · right; exact ⟨x, List.mem_cons_of_mem _ hx, heq⟩

theorem gmui_ge {db : DB} {orgID : Nat} {res : String} {x : Grant}
    (hx : x ∈ db.grants) (hw : gmuiWhere orgID res x = true) :
    ∃ mi, grantsMaxUpdateIndex db orgID res = .ok mi ∧ x.updateIndex ≤ mi := by
  have hmem : x ∈ db.grants.filter (gmuiWhere orgID res) :=
    List.mem_filter.mpr ⟨hx, hw⟩
  unfold grantsMaxUpdateIndex
  cases hrows : db.grants.filter (gmuiWhere orgID res) with
  | nil => rw [hrows] at hmem; cases hmem
  | cons g gs =>
    rw [hrows] at hmem
    refine ⟨_, rfl, ?_⟩
    rcases List.mem_cons.mp hmem with rfl | hmem
    · exact foldlMax_init_le _ _
    · exact foldlMax_mem_le hmem _

theorem gmui_attained {db : DB} {orgID : Nat} {res : String} {mi : Nat}
    (h : grantsMaxUpdateIndex db orgID res = .ok mi) :
    ∃ x ∈ db.grants, gmuiWhere orgID res x = true ∧ x.updateIndex = mi := by
  unfold grantsMaxUpdateIndex at h
  cases hrows : db.grants.filter (gmuiWhere orgID res) with
  | nil => rw [hrows] at h; cases h
  | cons g gs =>
    rw [hrows] at h
    have hmi : gs.foldl (fun a x => Nat.max a x.updateIndex) g.updateIndex = mi :=
      by injection h
    have hsub : ∀ y, y ∈ g :: gs → y ∈ db.grants ∧ gmuiWhere orgID res y = true := by
      intro y hy
      have : y ∈ db.grants.filter (gmuiWhere orgID res) := hrows ▸ hy
      exact List.mem_filter.mp this
    rcases foldlMax_attained gs g.updateIndex with heq | ⟨x, hx, heq⟩
    · obtain ⟨h1, h2⟩ := hsub g (List.mem_cons_self g gs)
      exact ⟨g, h1, h2, by rw [← hmi, heq]⟩
    · obtain ⟨h1, h2⟩ := hsub x (List.mem_cons_of_mem _ hx)
      exact ⟨x, h1, h2, by rw [← hmi, heq]⟩

/-- Decomposition of a successful `ListGrants` call: the rows are the
paginated, sorted, filtered table for the computed subject set. -/
theorem ListGrants_ok_rows {db : DB} {orgID : Nat} {opts : ListGrantsOptions}
    {rows : List Grant} {mi : Option Nat}
    (h : ListGrants db orgID opts = .ok (rows, mi)) :
    ∃ subjects, listSubjects db opts = .ok subjects ∧
      rows = paginate opts.pagination
        (sortById (db.grants.filter (grantWhere orgID opts subjects))) := by
  cases hsub : listSubjects db opts with
  | error e => simp only [ListGrants, hsub] at h; exact Except.noConfusion h
  | ok subjects =>
    simp only [ListGrants, hsub] at h
    refine ⟨subjects, rfl, ?_⟩
    by_cases hmax : opts.maxUpdateIndex = true
    · rw [if_pos hmax] at h
      cases hgm : grantsMaxUpdateIndex db orgID opts.byResource with
      | error e => rw [hgm] at h; cases h
      | ok m =>
        rw [hgm] at h
        simp only [Except.ok.injEq, Prod.mk.injEq] at h
        exact h.1.symm
    · rw [if_neg hmax] at h
      simp only [Except.ok.injEq, Prod.mk.injEq] at h
      exact h.1.symm

/-- When a `ListGrants` call returns a `max_update_index`, it is the value
of `grantsMaxUpdateIndex` for the call's `ByResource` filter alone. -/
theorem ListGrants_ok_max {db : DB} {orgID : Nat} {opts : ListGrantsOptions}
    {rows : List Grant} {mi : Nat}
    (h : ListGrants db orgID opts = .ok (rows, some mi)) :
    grantsMaxUpdateIndex db orgID opts.byResource = .ok mi := by
  cases hsub : listSubjects db opts with
  | error e => simp only [ListGrants, hsub] at h; exact Except.noConfusion h
  | ok subjects =>
    simp only [ListGrants, hsub] at h
    by_cases hmax : opts.maxUpdateIndex = true
    · rw [if_pos hmax] at h
      cases hgm : grantsMaxUpdateIndex db orgID opts.byResource with
      | error e => rw [hgm] at h; cases h
      | ok m =>
        rw [hgm] at h
        simp only [Except.ok.injEq, Prod.mk.injEq, Option.some.injEq] at h
        rw [h.2]
    · rw [if_neg hmax] at h
      simp only [Except.ok.injEq, Prod.mk.injEq] at h
      cases h.2

/-! ## Claim C1 -/

/-- C1 counterexample: a JWKS publishing keys 1 and 2, and a token signed
with key 2 that satisfies every other check (the same request is forwarded
when key 2 comes first).  Some published key validates the token, yet the
middleware responds 401: verification is restricted to the first key. -/
theorem c1_counterexample :
    (([1, 2] : List JWK).any (fun key => checkSig key c1tok) = true)
  ∧ jwtMiddleware (getjwk (Except.ok [1, 2])) c1parse 0 c1req
      = MWResult.respond 401 "unauthorized"
  ∧ jwtMiddleware (getjwk (Except.ok [2, 1])) c1parse 0 c1req
      = MWResult.forward { c1req with ctxEmail := some "alice@x" } := by
  exact ⟨by decide, by decide, by decide⟩

/-- C1 (amended): the engine verifies JWTs against only the FIRST key of
the JWKS fetched from the registry — `getjwk` returns `Keys[0]` — and the
middleware's outcome depends on no other published key. -/
theorem c1_single_key_verification (k : JWK) (tl : List JWK)
    (parse : String → Option Tok) (now : Int) (r : Request) :
    getjwk (Except.ok (k :: tl)) = Except.ok k
  ∧ jwtMiddleware (getjwk (Except.ok (k :: tl))) parse now r
      = jwtMiddleware (Except.ok k) parse now r :=
  ⟨rfl, rfl⟩

/-! ## Claim C2 -/

/-- C2 counterexample: in a transaction for organization 1,
`userPublicKeys` returns a row whose `organizationID` is 2 — the query
filters only on `deleted_at` and `user_id`. -/
theorem c2_counterexample :
    userPublicKeys c2db 1 7 = [c2row] ∧ c2row.organizationID ≠ 1 := by
  exact ⟨by decide, by decide⟩

/-- C2 (amended): the grant read queries (`ListGrants`, `GetGrant`) filter
on both the transaction's organization and `deleted_at IS NULL`, but the
user public keys listing filters only on `deleted_at IS NULL` and
`user_id`; it does not reference the transaction's organization at all,
so its result is identical under any two organizations' transactions. -/
theorem c2_org_scoping :
    (∀ (db : DB) (orgID : Nat) (opts : ListGrantsOptions)
       (rows : List Grant) (mi : Option Nat),
       ListGrants db orgID opts = .ok (rows, mi) →
       ∀ g ∈ rows, g.organizationID = orgID ∧ g.deletedAt = none)
  ∧ (∀ (db : DB) (orgID : Nat) (opts : GetGrantOptions) (g : Grant),
       GetGrant db orgID opts = .ok g →
       g.organizationID = orgID ∧ g.deletedAt = none)
  ∧ (∀ (db : DB) (orgID userID : Nat) (k : UserPublicKeyRow),
       k ∈ userPublicKeys db orgID userID →
       k.deletedAt = none ∧ k.userID = userID)
  ∧ (∀ (db : DB) (o1 o2 userID : Nat),
       userPublicKeys db o1 userID = userPublicKeys db o2 userID) := by
  refine ⟨?_, ?_, ?_, ?_⟩
  · intro db orgID opts rows mi h g hg
    obtain ⟨subjects, _, hrows⟩ := ListGrants_ok_rows h
    subst hrows
    have hg2 := mem_sortById.mp (mem_paginate hg)
    have := (List.mem_filter.mp hg2).2
    simp only [grantWhere, Bool.and_eq_true, beq_iff_eq,
      Option.isNone_iff_eq_none] at this
    exact ⟨this.1.1.1.1.1.2, this.1.1.1.1.1.1⟩
  · intro db orgID opts g h
    unfold GetGrant at h
    by_cases h1 : opts.byID ≠ 0
    · rw [if_pos h1] at h
      cases hf : db.grants.find? (fun g =>
          (g.organizationID == orgID && g.deletedAt.isNone) && g.id == opts.byID) with
      | none => rw [hf] at h; exact Except.noConfusion h
      | some g2 =>
        rw [hf] at h
        have hp := List.find?_some hf
        simp only [Except.ok.injEq] at h
        subst h
        simp only [Bool.and_eq_true, beq_iff_eq, Option.isNone_iff_eq_none] at hp
        exact ⟨hp.1.1, hp.1.2⟩
    · rw [if_neg h1] at h
      by_cases h2 : opts.bySubject ≠ ""
      · rw [if_pos h2] at h
        cases hf : db.grants.find? (fun g =>
            (((g.organizationID == orgID && g.deletedAt.isNone)
              && g.subject == opts.bySubject) && g.privilege == opts.byPrivilege)
              && g.resource == opts.byResource) with
        | none => rw [hf] at h; exact Except.noConfusion h
        | some g2 =>
          rw [hf] at h
          have hp := List.find?_some hf
          simp only [Except.ok.injEq] at h
          subst h
          simp only [Bool.and_eq_true, beq_iff_eq, Option.isNone_iff_eq_none] at hp
          exact ⟨hp.1.1.1.1, hp.1.1.1.2⟩
      · rw [if_neg h2] at h
        exact Except.noConfusion h
  · intro db orgID userID k hk
    have := List.mem_filter.mp hk
    simp only [Bool.and_eq_true, beq_iff_eq, Option.isNone_iff_eq_none] at this
    exact this.2
  · intro db o1 o2 userID
    rfl

/-- C2 witness: the scoping theorem applied at concrete inputs — a grant
row returned by `ListGrants` for organization 1 indeed belongs to
organization 1 and is live; a returned public key row is live and belongs
to the requested user; and the public keys listing cannot distinguish
organizations 1 and 42. -/
theorem c2_witness :
    (c3grantProd.organizationID = 1 ∧ c3grantProd.deletedAt = none)
  ∧ (c2row.deletedAt = none ∧ c2row.userID = 7)
  ∧ userPublicKeys c2db 1 7 = userPublicKeys c2db 42 7 := by
  refine ⟨?_, ?_, ?_⟩
  · exact c2_org_scoping.1 c3db 1 c3opts [c3grantProd] (some 5) (by decide)
      c3grantProd (by decide)
  · exact c2_org_scoping.2.2.1 c2db 1 7 c2row (by decide)
  · exact c2_org_scoping.2.2.2 c2db 1 42 7

/-! ## Header lemmas (for claim C4) -/

theorem header_get_values (h : Header) (k : String) :
    h.get k = (h.values k).headD "" := by
  obtain ⟨es⟩ := h
  induction es with
  | nil => rfl
  | cons e es ih =>
    simp only [Header.get, Header.values] at *
    cases he : e.1 == k with
    | true => simp [List.find?_cons, List.filter_cons, he]
    | false => simpa [List.find?_cons, List.filter_cons, he] using ih

theorem header_values_append (es fs : List (String × String)) (k : String) :
    Header.values ⟨es ++ fs⟩ k = Header.values ⟨es⟩ k ++ Header.values ⟨fs⟩ k := by
  simp [Header.values, List.filter_append]

theorem header_values_del (h : Header) (k k2 : String) :
    (h.del k).values k2 = if k2 = k then [] else h.values k2 := by
  obtain ⟨es⟩ := h
  induction es with
  | nil => simp [Header.del, Header.values]
  | cons e es ih =>
    simp only [Header.del, Header.values, List.filter_cons] at *
    by_cases hk2 : k2 = k
    · simp only [hk2, if_true] at ih ⊢
      cases he : e.1 == k with
      | true => simpa [he] using ih
      | false => simpa [he] using ih
    · simp only [if_neg hk2] at ih ⊢
      cases he : e.1 == k with
      | true =>
        have he2 : (e.1 == k2) = false := by
          rw [beq_eq_false_iff_ne]
          simp only [beq_iff_eq] at he
          rw [he]
          intro hc; exact hk2 hc.symm
        simpa [he, he2] using ih
      | false =>
        cases he2 : e.1 == k2 with
        | true => simpa [he, he2] using ih
        | false => simpa [he, he2] using ih

theorem header_values_single (k v k2 : String) :
    Header.values ⟨[(k, v)]⟩ k2 = if k2 = k then [v] else [] := by
  simp only [Header.values, List.filter_cons, List.filter_nil]
  by_cases hk : k2 = k
  · subst hk
    simp
  · have hne : (k == k2) = false := by
      rw [beq_eq_false_iff_ne]
      intro hc; exact hk hc.symm
    simp [hne, hk]

theorem header_values_set (h : Header) (k v k2 : String) :
    (h.set k v).values k2 = if k2 = k then [v] else h.values k2 := by
  have hset : (h.set k v).values k2
      = (h.del k).values k2 ++ Header.values ⟨[(k, v)]⟩ k2 := by
    cases hd : h.del k with
    | mk es => simpa [Header.set, hd] using header_values_append es [(k, v)] k2
  rw [hset, header_values_del, header_values_single]
  by_cases hk : k2 = k <;> simp [hk]

theorem header_values_add (h : Header) (k v k2 : String) :
    (h.add k v).values k2 = h.values k2 ++ (if k2 = k then [v] else []) := by
  have : (h.add k v).values k2
      = h.values k2 ++ Header.values ⟨[(k, v)]⟩ k2 := by
    cases h with
    | mk es => simpa [Header.add] using header_values_append es [(k, v)] k2
  rw [this, header_values_single]

/-! ## Claim C4 -/

/-- C4 counterexample: the inbound request already carries an
`Authorization` header.  `proxyHandler` uses `Header.Add`, so the upstream
request carries both the inbound value and the engine token — not exactly
the engine's service-account bearer token. -/
theorem c4_counterexample :
    (match proxyHandler "satok" c4req with
     | .upstream r => r.header.values "Authorization"
     | _ => []) = ["Bearer stolen", "Bearer satok"]
  ∧ ["Bearer stolen", "Bearer satok"] ≠ ["Bearer satok"] := by
  exact ⟨by decide, by decide⟩

/-- C4 (amended): for every request the proxy forwards after JWT
validation placed email E in the context, the upstream request carries
`Impersonate-User: E`, does not carry `X-Infra-Authorization`, has the
engine's service-account bearer token APPENDED to its `Authorization`
values — so exactly that token whenever the inbound request carried no
`Authorization` header — and, when `X-Infra-Query` was non-empty on the
inbound request, has its URL query string restored from that header. -/
theorem c4_upstream_request (sa : String) (r : Request) (email : String)
    (hemail : r.ctxEmail = some email)
    (hpath : strStarts r.path "/proxy" = true) :
    ∃ r2, proxyHandler sa r = .upstream r2
      ∧ r2.header.get "Impersonate-User" = email
      ∧ r2.header.values "Impersonate-User" = [email]
      ∧ r2.header.values "X-Infra-Authorization" = []
      ∧ r2.header.values "Authorization"
          = r.header.values "Authorization" ++ ["Bearer " ++ sa]
      ∧ (r.header.values "Authorization" = [] →
          r2.header.values "Authorization" = ["Bearer " ++ sa])
      ∧ r2.rawQuery = (if r.header.get "X-Infra-Query" ≠ ""
                       then r.header.get "X-Infra-Query" else r.rawQuery)
      ∧ r2.path = strDrop r.path 6 := by
  refine ⟨{ r with
      header := ((r.header.del "X-Infra-Authorization").set "Impersonate-User"
        email).add "Authorization" ("Bearer " ++ sa),
      rawQuery := if r.header.get "X-Infra-Query" ≠ ""
                  then r.header.get "X-Infra-Query" else r.rawQuery,
      path := strDrop r.path 6 }, ?_, ?_, ?_, ?_, ?_, ?_, ?_, ?_⟩
  · unfold proxyHandler
    by_cases hq : r.header.get "X-Infra-Query" ≠ "" <;>
      simp [hq, hemail, hpath]
  · simp [header_get_values, header_values_add, header_values_set]
  · simp [header_values_add, header_values_set]
  · simp [header_values_add, header_values_set, header_values_del]
  · simp [header_values_add, header_values_set, header_values_del]
  · intro h0
    simp [header_values_add, header_values_set, header_values_del, h0]
  · rfl
  · rfl

/-- C4 witness: the amended theorem at a concrete request that carries
`X-Infra-Query` and no inbound `Authorization` header: the upstream
request impersonates alice, has exactly the engine token, no
`X-Infra-Authorization`, and the restored query string. -/
theorem c4_witness :
    ∃ r2, proxyHandler "satok" c4cleanReq = .upstream r2
      ∧ r2.header.get "Impersonate-User" = "alice@x"
      ∧ r2.header.values "X-Infra-Authorization" = []
      ∧ r2.header.values "Authorization" = ["Bearer satok"]
      ∧ r2.rawQuery = "watch=true" := by
  obtain ⟨r2, h1, h2, _, h4, _, h6, h7, _⟩ :=
    c4_upstream_request "satok" c4cleanReq "alice@x" (by decide) (by decide)
  refine ⟨r2, h1, h2, h4, h6 (by decide), ?_⟩
  rw [h7]
  decide

/-! ## Claim C6 -/

/-- C6: evaluation of the reconciler tick at the failing input.  When
`ListRoles` fails the tick does NOT finish after logging: the missing
`return` lets control fall through to `range rolesRes.Roles`, which
dereferences the nil response and panics.  Every other step's failure
(cluster reads, destination registration, the RoleBindings apply) makes
the same tick finish after logging the error, as the claim describes. -/
theorem c6_nil_dereference :
    runTick c6env
      = .panicked "runtime error: invalid memory address or nil pointer dereference"
  ∧ runTick { c6env with ca := .error "no ca" } = .finished ["no ca"]
  ∧ runTick { c6env with saToken := .error "no token" } = .finished ["no token"]
  ∧ runTick { c6env with createDestination := .error "rpc unavailable" }
      = .finished ["rpc unavailable"]
  ∧ runTick { c6env with listRoles := .ok ⟨[]⟩, updateRoles := fun _ => .error "apply failed" }
      = .finished ["apply failed"] := by
  exact ⟨by decide, by decide, by decide, by decide, by decide⟩

/-! ## Claims C5 and C10 -/

/-- C5: the middleware fails closed with 401 in every failure mode: empty
or missing token, unparsable token, JWKS fetch failure, invalid
signature, wrong issuer, missing email claim — each responds 401 with
body "unauthorized" — an expired (otherwise valid) token responds 401
with body "expired", and every non-forwarded request gets status 401 with
one of those two bodies. -/
theorem c5_fail_closed :
    (∀ (gr : Except String JWK) (parse : String → Option Tok) (now : Int)
       (r : Request),
       replaceAll (r.header.get "X-Infra-Authorization") "Bearer " "" = "" →
       jwtMiddleware gr parse now r = .respond 401 "unauthorized")
  ∧ (∀ (gr : Except String JWK) (parse : String → Option Tok) (now : Int)
       (r : Request),
       replaceAll (r.header.get "X-Infra-Authorization") "Bearer " "" ≠ "" →
       parse (replaceAll (r.header.get "X-Infra-Authorization") "Bearer " "") = none →
       jwtMiddleware gr parse now r = .respond 401 "unauthorized")
  ∧ (∀ (e : String) (parse : String → Option Tok) (now : Int) (r : Request),
       jwtMiddleware (Except.error e) parse now r = .respond 401 "unauthorized")
  ∧ (∀ (k : JWK) (parse : String → Option Tok) (now : Int) (r : Request)
       (tok : Tok),
       replaceAll (r.header.get "X-Infra-Authorization") "Bearer " "" ≠ "" →
       parse (replaceAll (r.header.get "X-Infra-Authorization") "Bearer " "") = some tok →
       checkSig k tok = false →
       jwtMiddleware (Except.ok k) parse now r = .respond 401 "unauthorized")
  ∧ (∀ (k : JWK) (parse : String → Option Tok) (now : Int) (r : Request)
       (tok : Tok),
       replaceAll (r.header.get "X-Infra-Authorization") "Bearer " "" ≠ "" →
       parse (replaceAll (r.header.get "X-Infra-Authorization") "Bearer " "") = some tok →
       checkSig k tok = true → tok.issuer ≠ "infra" →
       jwtMiddleware (Except.ok k) parse now r = .respond 401 "unauthorized")
  ∧ (∀ (k : JWK) (parse : String → Option Tok) (now : Int) (r : Request)
       (tok : Tok),
       replaceAll (r.header.get "X-Infra-Authorization") "Bearer " "" ≠ "" →
       parse (replaceAll (r.header.get "X-Infra-Authorization") "Bearer " "") = some tok →
       checkSig k tok = true → validateClaims now tok = some ClaimsErr.expired →
       jwtMiddleware (Except.ok k) parse now r = .respond 401 "expired")
  ∧ (∀ (k : JWK) (parse : String → Option Tok) (now : Int) (r : Request)
       (tok : Tok),
       replaceAll (r.header.get "X-Infra-Authorization") "Bearer " "" ≠ "" →
       parse (replaceAll (r.header.get "X-Infra-Authorization") "Bearer " "") = some tok →
       checkSig k tok = true → validateClaims now tok = none → tok.email = none →
       jwtMiddleware (Except.ok k) parse now r = .respond 401 "unauthorized")
  ∧ (∀ (gr : Except String JWK) (parse : String → Option Tok) (now : Int)
       (r : Request) (s : Nat) (b : String),
       jwtMiddleware gr parse now r = .respond s b →
       s = 401 ∧ (b = "unauthorized" ∨ b = "expired")) := by
  refine ⟨?_, ?_, ?_, ?_, ?_, ?_, ?_, ?_⟩
  · intro gr parse now r h0
    simp [jwtMiddleware, h0]
  · intro gr parse now r h0 hp
    simp [jwtMiddleware, h0, hp]
  · intro e parse now r
    by_cases h0 : replaceAll (r.header.get "X-Infra-Authorization") "Bearer " "" = ""
    · simp [jwtMiddleware, h0]
    · cases hp : parse (replaceAll (r.header.get "X-Infra-Authorization") "Bearer " "") with
      | none => simp [jwtMiddleware, h0, hp]
      | some tok => simp [jwtMiddleware, h0, hp]
  · intro k parse now r tok h0 hp hsig
    simp [jwtMiddleware, h0, hp, hsig]
  · intro k parse now r tok h0 hp hsig hiss
    have hv : validateClaims now tok = some ClaimsErr.invalidIssuer := by
      simp [validateClaims, hiss]
    simp [jwtMiddleware, h0, hp, hsig, hv]
  · intro k parse now r tok h0 hp hsig hv
    simp [jwtMiddleware, h0, hp, hsig, hv]
  · intro k parse now r tok h0 hp hsig hv hem
    simp [jwtMiddleware, h0, hp, hsig, hv, hem]
  · intro gr parse now r s b h
    by_cases h0 : replaceAll (r.header.get "X-Infra-Authorization") "Bearer " "" = ""
    · simp only [jwtMiddleware, h0, if_true] at h
      simp only [MWResult.respond.injEq] at h
      exact ⟨h.1.symm, Or.inl h.2.symm⟩
    · simp only [jwtMiddleware] at h
      rw [if_neg h0] at h
      cases hp : parse (replaceAll (r.header.get "X-Infra-Authorization") "Bearer " "") with
      | none =>
        rw [hp] at h
        simp only [MWResult.respond.injEq] at h
        exact ⟨h.1.symm, Or.inl h.2.symm⟩
      | some tok =>
        rw [hp] at h
        dsimp only [] at h
        cases gr with
        | error e =>
          dsimp only [] at h
          simp only [MWResult.respond.injEq] at h
          exact ⟨h.1.symm, Or.inl h.2.symm⟩
        | ok k =>
          dsimp only [] at h
          by_cases hsig : checkSig k tok = true
          · rw [if_neg (by simp [hsig])] at h
            cases hv : validateClaims now tok with
            | none =>
              rw [hv] at h
              dsimp only [] at h
              cases hem : tok.email with
              | none =>
                rw [hem] at h
                dsimp only [] at h
                simp only [MWResult.respond.injEq] at h
                exact ⟨h.1.symm, Or.inl h.2.symm⟩
              | some email =>
                rw [hem] at h
                dsimp only [] at h
                exact MWResult.noConfusion h
            | some c =>
              rw [hv] at h
              cases c with
              | expired =>
                simp only [MWResult.respond.injEq] at h
                exact ⟨h.1.symm, Or.inr h.2.symm⟩
              | invalidIssuer =>
                simp only [MWResult.respond.injEq] at h
                exact ⟨h.1.symm, Or.inl h.2.symm⟩
              | notValidYet =>
                simp only [MWResult.respond.injEq] at h
                exact ⟨h.1.symm, Or.inl h.2.symm⟩
          · rw [if_pos (by simp [hsig])] at h
            simp only [MWResult.respond.injEq] at h
            exact ⟨h.1.symm, Or.inl h.2.symm⟩

/-- C5 witness: each failure mode of the fail-closed theorem exercised at
a concrete input: empty header, junk token, JWKS fetch failure, signature
under a key not the published one, wrong issuer, expiry (one second past
the leeway), and a token with no email claim. -/
theorem c5_witness :
    jwtMiddleware (Except.ok 2) c5parse 0 (c5reqOf "") = .respond 401 "unauthorized"
  ∧ jwtMiddleware (Except.ok 2) c5parse 0 (c5reqOf "Bearer junk") = .respond 401 "unauthorized"
  ∧ jwtMiddleware (Except.error "connection refused") c5parse 0 (c5reqOf "Bearer token1")
      = .respond 401 "unauthorized"
  ∧ jwtMiddleware (Except.ok 1) c5parse 0 (c5reqOf "Bearer token1") = .respond 401 "unauthorized"
  ∧ jwtMiddleware (Except.ok 2) c5parse 0 (c5reqOf "Bearer badissuer") = .respond 401 "unauthorized"
  ∧ jwtMiddleware (Except.ok 2) c5parse 10061 (c5reqOf "Bearer token1") = .respond 401 "expired"
  ∧ jwtMiddleware (Except.ok 2) c5parse 0 (c5reqOf "Bearer noemail") = .respond 401 "unauthorized"
  ∧ ((401 : Nat) = 401 ∧ ("expired" = "unauthorized" ∨ "expired" = "expired")) := by
  refine ⟨?_, ?_, ?_, ?_, ?_, ?_, ?_, ?_⟩
  · exact c5_fail_closed.1 (Except.ok 2) c5parse 0 (c5reqOf "") (by decide)
  · exact c5_fail_closed.2.1 (Except.ok 2) c5parse 0 (c5reqOf "Bearer junk")
      (by decide) (by decide)
  · exact c5_fail_closed.2.2.1 "connection refused" c5parse 0 (c5reqOf "Bearer token1")
  · exact c5_fail_closed.2.2.2.1 1 c5parse 0 (c5reqOf "Bearer token1") c1tok
      (by decide) (by decide) (by decide)
  · exact c5_fail_closed.2.2.2.2.1 2 c5parse 0 (c5reqOf "Bearer badissuer") c5tokBadIssuer
      (by decide) (by decide) (by decide) (by decide)
  · exact c5_fail_closed.2.2.2.2.2.1 2 c5parse 10061 (c5reqOf "Bearer token1") c1tok
      (by decide) (by decide) (by decide) (by decide)
  · exact c5_fail_closed.2.2.2.2.2.2.1 2 c5parse 0 (c5reqOf "Bearer noemail") c5tokNoEmail
      (by decide) (by decide) (by decide) (by decide) (by decide)
  · exact c5_fail_closed.2.2.2.2.2.2.2 (Except.ok 2) c5parse 10061
      (c5reqOf "Bearer token1") 401 "expired"
      (c5_fail_closed.2.2.2.2.2.1 2 c5parse 10061 (c5reqOf "Bearer token1") c1tok
        (by decide) (by decide) (by decide) (by decide))

/-- C10: the middleware extracts the JWT by deleting every occurrence of
the substring "Bearer " from the `X-Infra-Authorization` value
(`replaceAll`, the model of `strings.Replace(..., -1)`): an empty result
is rejected with 401 "unauthorized"; whatever the extraction produces —
in particular a bare token sent without any "Bearer " marker — is what
gets parsed and, when it validates, forwarded; and every forwarded
request's token was parsed from exactly that extraction. -/
theorem c10_token_extraction :
    (∀ (gr : Except String JWK) (parse : String → Option Tok) (now : Int)
       (r : Request),
       replaceAll (r.header.get "X-Infra-Authorization") "Bearer " "" = "" →
       jwtMiddleware gr parse now r = .respond 401 "unauthorized")
  ∧ (∀ (k : JWK) (parse : String → Option Tok) (now : Int) (r : Request)
       (tok : Tok) (email : String),
       replaceAll (r.header.get "X-Infra-Authorization") "Bearer " "" ≠ "" →
       parse (replaceAll (r.header.get "X-Infra-Authorization") "Bearer " "") = some tok →
       checkSig k tok = true → validateClaims now tok = none →
       tok.email = some email →
       jwtMiddleware (Except.ok k) parse now r
         = .forward { r with ctxEmail := some email })
  ∧ (∀ (gr : Except String JWK) (parse : String → Option Tok) (now : Int)
       (r r2 : Request),
       jwtMiddleware gr parse now r = .forward r2 →
       ∃ tok,
         parse (replaceAll (r.header.get "X-Infra-Authorization") "Bearer " "") = some tok ∧
         r2 = { r with ctxEmail := tok.email }) := by
  refine ⟨?_, ?_, ?_⟩
  · intro gr parse now r h0
    simp [jwtMiddleware, h0]
  · intro k parse now r tok email h0 hp hsig hv hem
    simp [jwtMiddleware, h0, hp, hsig, hv, hem]
  · intro gr parse now r r2 h
    by_cases h0 : replaceAll (r.header.get "X-Infra-Authorization") "Bearer " "" = ""
    · simp only [jwtMiddleware, h0, if_true] at h
      exact MWResult.noConfusion h
    · simp only [jwtMiddleware] at h
      rw [if_neg h0] at h
      cases hp : parse (replaceAll (r.header.get "X-Infra-Authorization") "Bearer " "") with
      | none => rw [hp] at h; exact MWResult.noConfusion h
      | some tok =>
        rw [hp] at h
        dsimp only [] at h
        cases gr with
        | error e => exact MWResult.noConfusion h
        | ok k =>
          dsimp only [] at h
          by_cases hsig : checkSig k tok = true
          · rw [if_neg (by simp [hsig])] at h
            cases hv : validateClaims now tok with
            | none =>
              rw [hv] at h
              dsimp only [] at h
              cases hem : tok.email with
              | none => rw [hem] at h; exact MWResult.noConfusion h
              | some email =>
                rw [hem] at h
                dsimp only [] at h
                refine ⟨tok, rfl, ?_⟩
                have := (MWResult.forward.injEq _ _).mp h.symm
                rw [hem, this]
            | some c =>
              rw [hv] at h
              cases c <;> exact MWResult.noConfusion h
          · rw [if_pos (by simp [hsig])] at h
            exact MWResult.noConfusion h

/-- C10 witness: a bare token without any "Bearer " marker is accepted
and forwarded; a header value "xyBearer z" is parsed as "xyz" — the
occurrence inside the value is deleted — and, since the parse function
recognises "xyz", forwarded; the empty header is rejected. -/
theorem c10_witness :
    jwtMiddleware (Except.ok 2) c1parse 0 c10bareReq
      = .forward { c10bareReq with ctxEmail := some "alice@x" }
  ∧ jwtMiddleware (Except.ok 2) c10parse 0 (c5reqOf "xyBearer z")
      = .forward { c5reqOf "xyBearer z" with ctxEmail := some "alice@x" }
  ∧ jwtMiddleware (Except.ok 2) c1parse 0 (c5reqOf "") = .respond 401 "unauthorized" := by
  refine ⟨?_, ?_, ?_⟩
  · exact c10_token_extraction.2.1 2 c1parse 0 c10bareReq c1tok "alice@x"
      (by decide) (by decide) (by decide) (by decide) (by decide)
  · exact c10_token_extraction.2.1 2 c10parse 0 (c5reqOf "xyBearer z") c1tok "alice@x"
      (by decide) (by decide) (by decide) (by decide) (by decide)
  · exact c10_token_extraction.1 (Except.ok 2) c1parse 0 (c5reqOf "") (by decide)

/-! ## Claim C3 -/

/-- Every row matched by the soft-delete predicate reappears in the
updated table with `deleted_at` set and a fresh `update_index` strictly
above the sequence value at the start of the statement. -/
theorem softDeleteRows_mem {p : Grant → Bool} {now : Int} {l : List Grant}
    {g : Grant} (hg : g ∈ l) (hp : p g = true) (seq : Nat) :
    ∃ s, seq ≤ s ∧
      { g with deletedAt := some now, updateIndex := s + 1 }
        ∈ (softDeleteRows p now seq l).1 := by
  induction l generalizing seq with
  | nil => cases hg
  | cons h t ih =>
    rcases List.mem_cons.mp hg with rfl | hg
    · refine ⟨seq, le_refl _, ?_⟩
      simp only [softDeleteRows, hp, if_true]
      exact List.mem_cons_self _ _
    · by_cases hph : p h = true
      · obtain ⟨s, hs, hmem⟩ := ih hg (seq + 1)
        refine ⟨s, le_trans (Nat.le_succ seq) hs, ?_⟩
        simp only [softDeleteRows, hph, if_true]
        exact List.mem_cons_of_mem _ hmem
      · obtain ⟨s, hs, hmem⟩ := ih hg seq
        refine ⟨s, hs, ?_⟩
        simp only [softDeleteRows, hph, if_false]
        exact List.mem_cons_of_mem _ hmem

/-- C3 counterexample: with a destination filter `prod` the row list
contains only the `prod` grant, whose `update_index` is 1 — the maximum
over destination-matching rows per the claim's wording (`c3ClaimedMax`)
is 1 — yet the returned `max_update_index` is 5, taken from a grant on an
unrelated resource. -/
theorem c3_counterexample :
    ListGrants c3db 1 c3opts = .ok ([c3grantProd], some 5)
  ∧ c3ClaimedMax c3db 1 c3opts = 1
  ∧ (some 5 : Option Nat) ≠ some (c3ClaimedMax c3db 1 c3opts) := by
  exact ⟨by decide, by decide, by decide⟩

/-- C3 (amended): the returned `max_update_index` is the maximum
`update_index` over all grant rows of the organization matching the
call's `ByResource` filter ALONE — the destination, subject and privilege
filters are not applied to it — where the maximum ranges over
soft-deleted rows as well as live rows; and soft-deleting such a row
raises the value above the sequence's previous ceiling. -/
theorem c3_max_update_index (db : DB) (orgID : Nat)
    (opts : ListGrantsOptions) (rows : List Grant) (mi : Nat)
    (h : ListGrants db orgID opts = .ok (rows, some mi)) :
    (∀ g ∈ db.grants, g.organizationID = orgID →
       (opts.byResource = "" ∨ g.resource = opts.byResource) →
       g.updateIndex ≤ mi)
  ∧ (∃ g ∈ db.grants, g.organizationID = orgID ∧
       (opts.byResource = "" ∨ g.resource = opts.byResource) ∧
       g.updateIndex = mi)
  ∧ (∀ (now : Int) (gid : Nat) (db2 : DB),
       DeleteGrants db orgID now { byID := gid } = .ok db2 →
       (∀ e ∈ db.grants, e.updateIndex ≤ db.seqUpdateIndex) →
       ∀ g ∈ db.grants, g.deletedAt = none → g.organizationID = orgID →
         g.id = gid →
         (opts.byResource = "" ∨ g.resource = opts.byResource) →
         ∃ mi2, grantsMaxUpdateIndex db2 orgID opts.byResource = .ok mi2 ∧
           mi < mi2) := by
  have hgm := ListGrants_ok_max h
  have hWhere : ∀ g : Grant, g.organizationID = orgID →
      (opts.byResource = "" ∨ g.resource = opts.byResource) →
      gmuiWhere orgID opts.byResource g = true := by
    intro g horg hres
    simp only [gmuiWhere, Bool.and_eq_true, Bool.or_eq_true, beq_iff_eq]
    rcases hres with hres | hres
    · exact ⟨horg, Or.inl (by simp [hres])⟩
    · exact ⟨horg, Or.inr hres⟩
  refine ⟨?_, ?_, ?_⟩
  · intro g hg horg hres
    obtain ⟨mi2, heq, hle⟩ := gmui_ge hg (hWhere g horg hres)
    rw [hgm] at heq
    injection heq with heq
    rw [heq]
    exact hle
  · obtain ⟨x, hx, hw, hidx⟩ := gmui_attained hgm
    simp only [gmuiWhere, Bool.and_eq_true, Bool.or_eq_true, beq_iff_eq] at hw
    exact ⟨x, hx, hw.1, hw.2, hidx⟩
  · intro now gid db2 hdel hinv g hg hlive horg hid hres
    by_cases hgid : gid ≠ 0
    · have hdg : db2.grants
          = (softDeleteRows (fun g => (g.organizationID == orgID
              && g.deletedAt.isNone) && g.id == gid) now
              db.seqUpdateIndex db.grants).1 := by
        unfold DeleteGrants at hdel
        rw [if_pos hgid] at hdel
        simp only [Except.ok.injEq] at hdel
        rw [← hdel]
      have hp : ((g.organizationID == orgID && g.deletedAt.isNone)
          && g.id == gid) = true := by
        simp [horg, hlive, hid]
      obtain ⟨s, hs, hmem⟩ :=
        @softDeleteRows_mem (fun g => (g.organizationID == orgID
          && g.deletedAt.isNone) && g.id == gid) now db.grants g hg hp
          db.seqUpdateIndex
      rw [← hdg] at hmem
      have hw2 : gmuiWhere orgID opts.byResource
          { g with deletedAt := some now, updateIndex := s + 1 } = true :=
        hWhere _ horg hres
      obtain ⟨mi2, heq2, hle2⟩ := gmui_ge hmem hw2
      refine ⟨mi2, heq2, ?_⟩
      obtain ⟨x, hx, hw3, hidx⟩ := gmui_attained hgm
      have : mi ≤ db.seqUpdateIndex := hidx ▸ hinv x hx
      calc mi ≤ db.seqUpdateIndex := this
        _ < s + 1 := Nat.lt_succ_of_le hs
        _ ≤ mi2 := hle2
    · exfalso
      rw [not_not] at hgid
      subst hgid
      simp [DeleteGrants] at hdel

/-- C3 witness: the amended theorem at the concrete scenario — the
off-destination grant's index is bounded by the returned cursor, and
after soft-deleting the `prod` grant the unfiltered maximum rises above
the old sequence ceiling. -/
theorem c3_witness :
    c3grantOther.updateIndex ≤ 5
  ∧ (∃ mi2, grantsMaxUpdateIndex c3dbAfter 1 c3opts.byResource = .ok mi2 ∧ 5 < mi2) := by
  have h := c3_max_update_index c3db 1 c3opts [c3grantProd] 5 (by decide)
  refine ⟨?_, ?_⟩
  · exact h.1 c3grantOther (by decide) (by decide) (by decide)
  · exact h.2.2 1000 2 c3dbAfter (by decide) (by decide) c3grantOther
      (by decide) (by decide) (by decide) (by decide) (by decide)

/-! ## Claim C8 -/

/-- C8: `CreateGrant` on valid input inserts exactly one row, stamped with
the transaction's organization and a fresh `update_index` drawn from the
sequence (`nextval('seq_update_index')`), strictly above every existing
index whenever the sequence bounds them; when a live row with the same
(organization, subject, privilege, resource) already exists it returns
`ErrDuplicate` and — thanks to the savepoint rollback — the rows are
untouched (only the non-transactional sequence advanced), so the caller's
enclosing transaction remains usable. -/
theorem c8_create_grant (db : DB) (orgID : Nat) (g : Grant)
    (hs : g.subject ≠ "") (hp : g.privilege ≠ "") (hr : g.resource ≠ "") :
    (duplicateGrantExists db { g with organizationID := orgID } = true →
       (CreateGrant db orgID g).1 = .error .duplicate
     ∧ (CreateGrant db orgID g).2.grants = db.grants)
  ∧ (duplicateGrantExists db { g with organizationID := orgID } = false →
       (CreateGrant db orgID g).1 = .ok ()
     ∧ (CreateGrant db orgID g).2.grants
         = db.grants ++ [{ g with organizationID := orgID
                                  updateIndex := db.seqUpdateIndex + 1 }]
     ∧ (CreateGrant db orgID g).2.seqUpdateIndex = db.seqUpdateIndex + 1
     ∧ ((∀ e ∈ db.grants, e.updateIndex ≤ db.seqUpdateIndex) →
         ∀ e ∈ db.grants, e.updateIndex < db.seqUpdateIndex + 1)) := by
  constructor
  · intro hdup
    constructor <;> simp [CreateGrant, hs, hp, hr, hdup]
  · intro hdup
    refine ⟨?_, ?_, ?_, ?_⟩
    · simp [CreateGrant, hs, hp, hr, hdup]
    · simp [CreateGrant, hs, hp, hr, hdup]
    · simp [CreateGrant, hs, hp, hr, hdup]
    · intro hinv e he
      exact Nat.lt_succ_of_le (hinv e he)

/-- C8 witness: creating a grant that duplicates the live `(u:7, view,
prod)` row of organization 1 fails with `ErrDuplicate` and leaves the
rows unchanged, while the same data under a different privilege is
inserted with the next sequence value. -/
theorem c8_witness :
    (CreateGrant c9db 1 c8dup).1 = .error .duplicate
  ∧ (CreateGrant c9db 1 c8dup).2.grants = c9db.grants
  ∧ (CreateGrant c9db 1 { c8dup with privilege := "edit" }).1 = .ok ()
  ∧ (CreateGrant c9db 1 { c8dup with privilege := "edit" }).2.grants
      = c9db.grants ++ [{ c8dup with organizationID := 1
                                     privilege := "edit"
                                     updateIndex := 3 }] := by
  have h1 := c8_create_grant c9db 1 c8dup (by decide) (by decide) (by decide)
  have h2 := c8_create_grant c9db 1 { c8dup with privilege := "edit" }
    (by decide) (by decide) (by decide)
  obtain ⟨ha, hb⟩ := h1.1 (by decide)
  obtain ⟨hc, hd, _, _⟩ := h2.2 (by decide)
  refine ⟨ha, hb, hc, ?_⟩
  rw [hd]
  decide

/-! ## Claim C9 -/

/-- A `ListGrants` call whose subject set resolved and which does not ask
for `max_update_index` returns the paginated, sorted, filtered rows. -/
theorem ListGrants_of_subjects {db : DB} {orgID : Nat}
    {opts : ListGrantsOptions} {subjects : List String}
    (hsubj : listSubjects db opts = .ok subjects)
    (hmax : opts.maxUpdateIndex = false) :
    ListGrants db orgID opts
      = .ok (paginate opts.pagination
          (sortById (db.grants.filter (grantWhere orgID opts subjects))),
        none) := by
  simp only [ListGrants, hsubj]
  rw [if_neg (by simp [hmax])]

/-- C9: for a user subject (any well-formed user polymorphic id `p`
parsing to user id `u`), `ListGrants` with `IncludeInheritedFromGroups`
returns exactly the live organization rows whose subject is `p` itself or
the group polymorphic id of some group `u` belongs to, restricted by the
destination filter when given; with the flag unset it returns exactly the
rows whose subject is `p`; and the flag with a non-user subject is
rejected with an error. -/
theorem c9_inherited_grants (db : DB) (orgID : Nat) (p : String) (u : Nat)
    (d : String) (hp0 : p ≠ "") (hpid : polymorphicToID p = .ok u)
    (hisid : polymorphicIsIdentity p = true) :
    (∃ rows, ListGrants db orgID
        { bySubject := p, includeInheritedFromGroups := true,
          byDestination := d } = .ok (rows, none)
      ∧ ∀ g, g ∈ rows ↔ (g ∈ db.grants ∧ g.deletedAt = none
          ∧ g.organizationID = orgID
          ∧ (g.subject = p ∨ ∃ gid ∈ groupIDsForUser db u,
               g.subject = NewGroupPolymorphicID gid)
          ∧ (d = "" ∨ g.resource = d
               ∨ strStarts g.resource (d ++ ".") = true)))
  ∧ (∃ rows, ListGrants db orgID
        { bySubject := p, byDestination := d } = .ok (rows, none)
      ∧ ∀ g, g ∈ rows ↔ (g ∈ db.grants ∧ g.deletedAt = none
          ∧ g.organizationID = orgID ∧ g.subject = p
          ∧ (d = "" ∨ g.resource = d
               ∨ strStarts g.resource (d ++ ".") = true)))
  ∧ (∀ q : String, q ≠ "" → polymorphicIsIdentity q = false →
      ListGrants db orgID
        { bySubject := q, includeInheritedFromGroups := true,
          byDestination := d }
        = .error "IncludeInheritedFromGroups requires a userId subject") := by
  have hpne : (p == "") = false := by
    rw [beq_eq_false_iff_ne]; exact hp0
  refine ⟨?_, ?_, ?_⟩
  · have hsubj : listSubjects db
        { bySubject := p, includeInheritedFromGroups := true,
          byDestination := d }
        = .ok (p :: (groupIDsForUser db u).map NewGroupPolymorphicID) := by
      simp [listSubjects, hp0, hpid, hisid]
    refine ⟨_, ListGrants_of_subjects hsubj rfl, ?_⟩
    intro g
    rw [mem_paginate_none, mem_sortById, List.mem_filter]
    simp only [grantWhere, Bool.and_eq_true, Bool.or_eq_true, beq_iff_eq,
      Option.isNone_iff_eq_none, List.elem_eq_mem, decide_eq_true_eq,
      List.mem_cons, List.mem_map]
    constructor
    · rintro ⟨hmem, ⟨⟨⟨⟨⟨hlive, horg⟩, hsub⟩, -⟩, -⟩, hdest⟩, -⟩
      refine ⟨hmem, hlive, horg, ?_, ?_⟩
      · rcases hsub with hsub | hsub | ⟨gid, hgid, heq⟩
        · exact absurd hsub hp0
        · exact Or.inl hsub
        · exact Or.inr ⟨gid, hgid, heq.symm⟩
      · tauto
    · rintro ⟨hmem, hlive, horg, hsub, hdest⟩
      refine ⟨hmem, ⟨⟨⟨⟨⟨hlive, horg⟩, ?_⟩, by simp⟩, by simp⟩, ?_⟩, by simp⟩
      · right
        rcases hsub with hsub | ⟨gid, hgid, heq⟩
        · exact Or.inl hsub
        · exact Or.inr ⟨gid, hgid, heq.symm⟩
      · tauto
  · have hsubj : listSubjects db { bySubject := p, byDestination := d }
        = .ok [p] := by
      simp [listSubjects, hp0]
    refine ⟨_, ListGrants_of_subjects hsubj rfl, ?_⟩
    intro g
    rw [mem_paginate_none, mem_sortById, List.mem_filter]
    simp only [grantWhere, Bool.and_eq_true, Bool.or_eq_true, beq_iff_eq,
      Option.isNone_iff_eq_none, List.elem_eq_mem, decide_eq_true_eq,
      List.mem_singleton]
    constructor
    · rintro ⟨hmem, ⟨⟨⟨⟨⟨hlive, horg⟩, hsub⟩, -⟩, -⟩, hdest⟩, -⟩
      refine ⟨hmem, hlive, horg, ?_, ?_⟩
      · rcases hsub with hsub | hsub
        · exact absurd hsub hp0
        · exact hsub
      · tauto
    · rintro ⟨hmem, hlive, horg, hsub, hdest⟩
      refine ⟨hmem, ⟨⟨⟨⟨⟨hlive, horg⟩, Or.inr hsub⟩, by simp⟩, by simp⟩, ?_⟩, by simp⟩
      tauto
  · intro q hq0 hqid
    cases hq2 : polymorphicToID q with
    | error e =>
      have hsubj : listSubjects db
          { bySubject := q, includeInheritedFromGroups := true,
            byDestination := d }
          = .error "IncludeInheritedFromGroups requires a userId subject" := by
        simp [listSubjects, hq0, hq2, hqid]
      simp [ListGrants, hsubj]
    | ok uid =>
      have hsubj : listSubjects db
          { bySubject := q, includeInheritedFromGroups := true,
            byDestination := d }
          = .error "IncludeInheritedFromGroups requires a userId subject" := by
        simp [listSubjects, hq0, hq2, hqid]
      simp [ListGrants, hsubj]

/-- C9 witness: user 7 (subject "u:7") belongs to group 5; with
inheritance on, both the user's grant and the group's grant on `prod`
are returned; with inheritance off, only the user's own; and a group
subject with the flag set is rejected. -/
theorem c9_witness :
    ListGrants c9db 1 { bySubject := "u:7", includeInheritedFromGroups := true,
                        byDestination := "prod" }
      = .ok ([c9grantUser, c9grantGroup], none)
  ∧ ListGrants c9db 1 { bySubject := "u:7", byDestination := "prod" }
      = .ok ([c9grantUser], none)
  ∧ ListGrants c9db 1 { bySubject := "g:5", includeInheritedFromGroups := true,
                        byDestination := "prod" }
      = .error "IncludeInheritedFromGroups requires a userId subject" := by
  have h := c9_inherited_grants c9db 1 "u:7" 7 "prod" (by decide) (by decide)
    (by decide)
  refine ⟨by decide, by decide, ?_⟩
  exact h.2.2 "g:5" (by decide) (by decide)

/-! ## Claim C7 -/

theorem splitOnChar_sep {c : Char} {xs : List Char} (ys : List Char)
    (hx : c ∉ xs) :
    splitOnChar c (xs ++ c :: ys) = xs :: splitOnChar c ys := by
  induction xs with
  | nil => simp [splitOnChar]
  | cons x xs ih =>
    have hxc : ¬ x = c := fun hc => hx (hc ▸ List.mem_cons_self x xs)
    have ih2 := ih (fun hc => hx (List.mem_cons_of_mem _ hc))
    simp only [List.cons_append, splitOnChar, List.append_eq, if_neg hxc, ih2]

theorem splitOnChar_no_sep {c : Char} {ys : List Char} (hy : c ∉ ys) :
    splitOnChar c ys = [ys] := by
  induction ys with
  | nil => rfl
  | cons y ys ih =>
    have hyc : ¬ y = c := fun hc => hy (hc ▸ List.mem_cons_self y ys)
    have ih2 := ih (fun hc => hy (List.mem_cons_of_mem _ hc))
    simp only [splitOnChar, if_neg hyc, ih2]

/-- Splitting `keyID.secret` on the dot recovers the two dot-free
halves. -/
theorem splitDot_append (a b : String) (ha : '.' ∉ a.data)
    (hb : '.' ∉ b.data) : splitDot (a ++ "." ++ b) = [a, b] := by
  have hdata : (a ++ "." ++ b).data = a.data ++ '.' :: b.data := by
    simp [String.data_append]
  rw [splitDot, hdata, splitOnChar_sep _ ha, splitOnChar_no_sep hb]
  rfl

/-- C7 counterexample: the stored key has no extension deadline (the Go
zero value, modelled as 0).  Validation succeeds at `now = 100` although
`now < extension_deadline` is false — the claim's unconditional
"current time is before extension_deadline" does not hold on the code
pinned by `TestCheckAccessKeySecret`. -/
theorem c7_counterexample :
    ValidateAccessKey c7db 100 "0123456789.012345678901234567890123"
      = .ok c7stored
  ∧ ¬ ((100 : Int) < c7stored.extensionDeadline) := by
  exact ⟨by decide, by decide⟩

/-- C7 (amended): storing a key and fetching it returns an empty secret;
`Validate(keyID.secret)` succeeds exactly when the presented secret's
checksum equals the stored checksum, the current time is before
`expires_at` and — when an extension deadline is set (non-zero) — before
`extension_deadline`; and on a single failing condition it returns that
condition's specific error (invalid secret, expired, or deadline
exceeded). -/
theorem c7_access_key (db : KeyDB) (created : Int) (k : AccessKey)
    (genK genS : String) (pair : String) (db2 : KeyDB)
    (hc : CreateAccessKey db created k genK genS = .ok (pair, db2))
    (hid : ∀ e ∈ db.keys, e.id ≠ k.id) :
    (∃ st, GetAccessKey db2 k.id = .ok st ∧ st.secret = "")
  ∧ (∀ (vdb : KeyDB) (now : Int) (keyID secret : String) (k2 : AccessKey),
       '.' ∉ keyID.data → '.' ∉ secret.data →
       vdb.keys.find? (fun e => e.keyID == keyID) = some k2 →
       (ValidateAccessKey vdb now (keyID ++ "." ++ secret) = .ok k2 ↔
         (secretChecksum secret = k2.secretChecksum ∧ now < k2.expiresAt ∧
          (k2.extensionDeadline ≠ 0 → now < k2.extensionDeadline))))
  ∧ (∀ (vdb : KeyDB) (now : Int) (keyID secret : String) (k2 : AccessKey),
       '.' ∉ keyID.data → '.' ∉ secret.data →
       vdb.keys.find? (fun e => e.keyID == keyID) = some k2 →
       (secretChecksum secret ≠ k2.secretChecksum →
          ValidateAccessKey vdb now (keyID ++ "." ++ secret)
            = .error .invalidSecret)
     ∧ (secretChecksum secret = k2.secretChecksum → ¬ now < k2.expiresAt →
          ValidateAccessKey vdb now (keyID ++ "." ++ secret)
            = .error .expired)
     ∧ (secretChecksum secret = k2.secretChecksum → now < k2.expiresAt →
          k2.extensionDeadline ≠ 0 → ¬ now < k2.extensionDeadline →
          ValidateAccessKey vdb now (keyID ++ "." ++ secret)
            = .error .deadlineExceeded)) := by
  refine ⟨?_, ?_, ?_⟩
  · simp only [CreateAccessKey] at hc
    by_cases h1 : (if k.keyID = "" then genK else k.keyID).length ≠ 10
    · rw [if_pos h1] at hc
      exact absurd hc (by simp)
    · rw [if_neg h1] at hc
      by_cases h2 : (if k.secret = "" then genS else k.secret).length ≠ 24
      · rw [if_pos h2] at hc
        exact absurd hc (by simp)
      · rw [if_neg h2] at hc
        simp only [Except.ok.injEq, Prod.mk.injEq] at hc
        obtain ⟨-, hdb2⟩ := hc
        refine ⟨{ k with keyID := if k.keyID = "" then genK else k.keyID
                         secret := ""
                         secretChecksum :=
                           secretChecksum (if k.secret = "" then genS else k.secret)
                         expiresAt :=
                           if k.expiresAt = 0 then created + 12 * 3600
                           else k.expiresAt }, ?_, rfl⟩
        have hnone : db.keys.find? (fun e => e.id == k.id) = none :=
          List.find?_eq_none.mpr (fun x hx => by simp [hid x hx])
        simp only [GetAccessKey, ← hdb2]
        rw [List.find?_append, hnone]
        simp [List.find?_cons]
  · intro vdb now keyID secret k2 hkd hsd hf
    simp only [ValidateAccessKey, splitDot_append keyID secret hkd hsd, hf]
    by_cases h1 : secretChecksum secret ≠ k2.secretChecksum
    · rw [if_pos h1]
      constructor
      · intro hcontra; exact Except.noConfusion hcontra
      · rintro ⟨heq, -, -⟩; exact absurd heq h1
    · rw [if_neg h1]
      by_cases h2 : ¬ now < k2.expiresAt
      · rw [if_pos h2]
        constructor
        · intro hcontra; exact Except.noConfusion hcontra
        · rintro ⟨-, hlt, -⟩; exact absurd hlt h2
      · rw [if_neg h2]
        by_cases h3 : k2.extensionDeadline ≠ 0 ∧ ¬ now < k2.extensionDeadline
        · rw [if_pos h3]
          constructor
          · intro hcontra; exact Except.noConfusion hcontra
          · rintro ⟨-, -, himp⟩; exact absurd (himp h3.1) h3.2
        · rw [if_neg h3]
          constructor
          · intro _
            refine ⟨not_not.mp h1, not_not.mp h2, ?_⟩
            intro hdl
            by_contra hlt
            exact h3 ⟨hdl, hlt⟩
          · intro _; rfl
  · intro vdb now keyID secret k2 hkd hsd hf
    refine ⟨?_, ?_, ?_⟩
    · intro hne
      simp only [ValidateAccessKey, splitDot_append keyID secret hkd hsd, hf]
      rw [if_pos hne]
    · intro heq hexp
      simp only [ValidateAccessKey, splitDot_append keyID secret hkd hsd, hf]
      rw [if_neg (by simp [heq]), if_pos hexp]
    · intro heq hexp hdl hlt
      simp only [ValidateAccessKey, splitDot_append keyID secret hkd hsd, hf]
      rw [if_neg (by simp [heq]), if_neg (by simp [hexp]), if_pos ⟨hdl, hlt⟩]

/-- C7 witness: create from an empty store, fetch back an empty secret;
the stored key validates at `now = 100`, is `ErrAccessKeyExpired` past
its expiry, and `ErrAccessKeyInvalidSecret` under a wrong secret. -/
theorem c7_witness :
    (∃ st, GetAccessKey c7db 1 = .ok st ∧ st.secret = "")
  ∧ ValidateAccessKey c7db 100 "0123456789.012345678901234567890123" = .ok c7stored
  ∧ ValidateAccessKey c7db 20000 "0123456789.012345678901234567890123" = .error .expired
  ∧ ValidateAccessKey c7db 100 "0123456789.999945678901234567890123" = .error .invalidSecret := by
  have h := c7_access_key (⟨[]⟩ : KeyDB) 0 c7key "" ""
    "0123456789.012345678901234567890123" c7db (by decide) (by decide)
  refine ⟨h.1, ?_, ?_, ?_⟩
  · exact (h.2.1 c7db 100 "0123456789" "012345678901234567890123" c7stored
      (by decide) (by decide) (by decide)).mpr ⟨by decide, by decide, by decide⟩
  · exact (h.2.2 c7db 20000 "0123456789" "012345678901234567890123" c7stored
      (by decide) (by decide) (by decide)).2.1 (by decide) (by decide)
  · exact (h.2.2 c7db 100 "0123456789" "999945678901234567890123" c7stored
      (by decide) (by decide) (by decide)).1 (by decide)

end Infra
